import Mathlib

/-!
Verification of the MealPrep rule-filtering engine (src/archive/rules.py)
and of the ingredient data model (src/src/ingredient.py).

Modelling conventions:
- A Python date is represented by its proleptic Gregorian ordinal, as an
  integer (the value of date.toordinal in Python); ordinal 1 is Monday,
  0001-01-01, so Python weekday() is (ordinal - 1) mod 7 with Monday = 0
  and Sunday = 6.
- A meals dictionary (name to meal metadata) is an association list
  from names to metadata of an arbitrary type alpha; rules only inspect
  the keys, and pass the metadata values through unchanged.
- The combined history (date to meal) is an association list from day
  ordinals to meal names; the rules consume history entries only through
  their names.
- The static metadata catalog, consumed through get_protein,
  is_favourite, is_fish, is_pasta, is_roast and is_time_consuming
  (mealprep/src/utils/meals.py, not part of the sources), is a bundle of
  read-only total lookups, as the spec describes it.
- A Python set is represented by a list considered up to membership.
-/

namespace MealPrep

/-- Modelled from the spec: the static meal-metadata catalog
(mealprep/src/utils/meals.py is not among the sources). The spec treats
it as a read-only lookup table from meal name to a protein category
(optional) and boolean tags. -/
structure Catalog where
  get_protein : String → Option String
  is_favourite : String → Bool
  is_fish : String → Bool
  is_pasta : String → Bool
  is_roast : String → Bool
  is_time_consuming : String → Bool

/-- A combined history: day ordinals paired with meal names. -/
abbrev History := List (Int × String)

/-- A meals dictionary: meal names paired with metadata of type alpha. -/
abbrev Meals (α : Type) := List (String × α)

/-- The key set of a meals dictionary. -/
def keys {α : Type} (meals : Meals α) : List String :=
  meals.map Prod.fst

/-- Python date.weekday() on a day ordinal: Monday = 0, Sunday = 6. -/
def weekday (date : Int) : Int :=
  (date - 1) % 7

/-- Modelled from the spec: get_close_history_meal_names
(mealprep/src/utils/history.py is not among the sources). Returns the
set of meal names whose history date lies within n_days, inclusive, of
the target date in either temporal direction. -/
def get_close_history_meal_names
    (combined_history : History) (date : Int) (n_days : Nat) : List String :=
  (combined_history.filter (fun p => (p.1 - date).natAbs ≤ n_days)).map Prod.snd

/-- Rule: do not recommend the same protein two days in a row. -/
def not_consecutive_same_protein {α : Type} (c : Catalog)
    (meals : Meals α) (date : Int) (combined_history : History) : Meals α :=
  let relevant_meal_names := get_close_history_meal_names combined_history date 1
  let proteins_to_avoid := relevant_meal_names.filterMap c.get_protein
  meals.filter (fun p =>
    match c.get_protein p.1 with
    | none => true
    | some pr => !(proteins_to_avoid.contains pr))

/-- Rule: do not recommend the same meal within seven days of a previous
occurrence. -/
def not_within_seven_days {α : Type} (c : Catalog)
    (meals : Meals α) (date : Int) (combined_history : History) : Meals α :=
  let relevant_meal_names := get_close_history_meal_names combined_history date 7
  meals.filter (fun p => !(relevant_meal_names.contains p.1))

/-- Rule: do not recommend any non-favourite meal within fourteen days
of a previous occurrence. -/
def not_non_favourite_within_fourteen_days {α : Type} (c : Catalog)
    (meals : Meals α) (date : Int) (combined_history : History) : Meals α :=
  let relevant_meal_names := get_close_history_meal_names combined_history date 14
  meals.filter (fun p => c.is_favourite p.1 || !(relevant_meal_names.contains p.1))

/-- Rule: do not recommend pasta dishes within five days of a previous
occurrence. -/
def not_pasta_within_five_days {α : Type} (c : Catalog)
    (meals : Meals α) (date : Int) (combined_history : History) : Meals α :=
  let relevant_meal_names := get_close_history_meal_names combined_history date 5
  if relevant_meal_names.any c.is_pasta then
    meals.filter (fun p => !(c.is_pasta p.1))
  else
    meals

/-- Rule: recommend only roasts on a Sunday. -/
def force_sunday_roast {α : Type} (c : Catalog)
    (meals : Meals α) (date : Int) (combined_history : History) : Meals α :=
  if weekday date ≠ 6 then
    meals
  else
    meals.filter (fun p => c.is_roast p.1)

/-- Rule: if not on Sunday, do not recommend a roast. -/
def not_roast_on_non_sunday {α : Type} (c : Catalog)
    (meals : Meals α) (date : Int) (combined_history : History) : Meals α :=
  if weekday date = 6 then
    meals
  else
    meals.filter (fun p => !(c.is_roast p.1))

/-- Rule: do not recommend fish dishes within seven days of a previous
occurrence. -/
def not_fish_within_seven_days {α : Type} (c : Catalog)
    (meals : Meals α) (date : Int) (combined_history : History) : Meals α :=
  let relevant_meal_names := get_close_history_meal_names combined_history date 7
  if relevant_meal_names.any c.is_fish then
    meals.filter (fun p => !(c.is_fish p.1))
  else
    meals

/-- Rule: do not recommend dishes which are marked as time-consuming on
a weekend. -/
def not_time_consuming_on_weekend {α : Type} (c : Catalog)
    (meals : Meals α) (date : Int) (combined_history : History) : Meals α :=
  if !(([5, 6] : List Int).contains (weekday date)) then
    meals
  else
    meals.filter (fun p => !(c.is_time_consuming p.1))

/-- Rule: do not recommend moussaka within seven days of a lasagne, and
conversely. -/
def not_lasagne_and_moussaka_within_seven_days {α : Type} (c : Catalog)
    (meals : Meals α) (date : Int) (combined_history : History) : Meals α :=
  let relevant_meal_names := get_close_history_meal_names combined_history date 7
  let meals1 :=
    if relevant_meal_names.contains "Moussaka" then
      meals.filter (fun p => !(p.1 == "Lasagne"))
    else
      meals
  if relevant_meal_names.contains "Lasagne" then
    meals1.filter (fun p => !(p.1 == "Moussaka"))
  else
    meals1

/-- The rule catalog, in the declared order of src/archive/rules.py. -/
def rulesList {α : Type} (c : Catalog) :
    List (Meals α → Int → History → Meals α) :=
  [not_consecutive_same_protein c,
   not_within_seven_days c,
   not_non_favourite_within_fourteen_days c,
   not_pasta_within_five_days c,
   force_sunday_roast c,
   not_roast_on_non_sunday c,
   not_fish_within_seven_days c,
   not_time_consuming_on_weekend c,
   not_lasagne_and_moussaka_within_seven_days c]

/-- Modelled from the spec: the pipeline applies the full ordered rule
list, threading the narrowing candidate set through each rule call; the
date and combined history are passed unchanged to every rule. -/
def pipeline {α : Type} (c : Catalog)
    (meals : Meals α) (date : Int) (combined_history : History) : Meals α :=
  not_lasagne_and_moussaka_within_seven_days c
    (not_time_consuming_on_weekend c
      (not_fish_within_seven_days c
        (not_roast_on_non_sunday c
          (force_sunday_roast c
            (not_pasta_within_five_days c
              (not_non_favourite_within_fourteen_days c
                (not_within_seven_days c
                  (not_consecutive_same_protein c meals date combined_history)
                  date combined_history)
                date combined_history)
              date combined_history)
            date combined_history)
          date combined_history)
        date combined_history)
      date combined_history)
    date combined_history

/-- Folding a list of rules over a meals dictionary, first rule first,
passing the date and the combined history unchanged to every rule. -/
def applyAll {α : Type} (rs : List (Meals α → Int → History → Meals α))
    (meals : Meals α) (date : Int) (combined_history : History) : Meals α :=
  rs.foldl (fun m r => r m date combined_history) meals

/-- Day ordinal of 2024-01-01, a Monday. -/
def date_2024_01_01 : Int := 738886

/-- Day ordinal of 2024-01-02, a Tuesday. -/
def date_2024_01_02 : Int := 738887

/-- Day ordinal of 2024-01-07, a Sunday. -/
def date_2024_01_07 : Int := 738892

/-- A small concrete metadata catalog used to exercise the theorems on
concrete inputs, matching the scenario of the spec. -/
def exampleCatalog : Catalog where
  get_protein := fun n =>
    if n == "Chicken Curry" || n == "Chicken Fajitas" then some "chicken"
    else if n == "Beef Chilli" then some "beef"
    else none
  is_favourite := fun _ => false
  is_fish := fun _ => false
  is_pasta := fun n => n == "Spaghetti Bolognese"
  is_roast := fun n => n == "Roast Chicken"
  is_time_consuming := fun _ => false

/-- A small concrete candidate dictionary. -/
def exampleMeals : Meals Nat :=
  [("Chicken Fajitas", 0), ("Beef Chilli", 1), ("Roast Chicken", 2), ("Stir Fry", 3)]

/-- A small concrete combined history. -/
def exampleHistory : History := [(date_2024_01_01, "Chicken Curry")]

/-- A concrete history with no entry within 14 days of 2024-01-02. -/
def quietHistory : History := [((700000 : Int), "Moussaka")]

/-- Modelled from the spec: the ingredient Category enum lives in
mealprep/src/constants.py, which is not among the sources; its members
are taken from their uses in src/src/ingredient.py. -/
inductive Category where
  | VEGETABLE
  | HERB
  | MEAT
  | CONDIMENT
  | SPICE
  | CAN
  | DAIRY
  | SAUCE
  | FRUIT
  | CARBOHYDRATE
  deriving DecidableEq

/-- An ingredient: a name together with a category
(src/src/ingredient.py, class Ingredient). -/
structure Ingredient where
  name : String
  category : Category
  deriving DecidableEq

/-- The Ingredients enum of src/src/ingredient.py: its members. -/
inductive Ingredients where
  | BABY_SPINACH
  | BAY_LEAVES
  | BEEF_MINCE
  | BROWN_SUGAR
  | CARROT
  | CASTER_SUGAR
  | CAYENNE_PEPPER
  | CELERY
  | CHERRY_TOMATO
  | CHICKEN_BREAST
  | CHICKEN_STOCK
  | CHICKEN_THIGH
  | CHOPPED_TOMATO
  | CORIANDER
  | CREAM
  | DARK_SOY_SAUCE
  | FRESH_CHILLI
  | FLOUR
  | GARLIC_CLOVE
  | GINGER
  | GUINNESS
  | HONEY
  | KIDNEY_BEAN
  | LEMONGRASS_PASTE
  | MIXED_HERBS
  | MOZARELLA_CHEESE
  | OLIVE_OIL
  | ONION
  | OREGANO
  | PAPRIKA
  | PARMESAN_CHEESE
  | PEAR
  | PENNE_PASTA
  | PORK_BELLY_SLICE
  | PORK_MINCE
  | POTATO
  | RED_CHILLI
  | RED_ONION
  | RED_PEPPER
  | RICE
  | RICE_WINE
  | SPAGHETTI
  | STEWING_BEEF
  | SUNDRIED_TOMATOES
  | TOMATO_PUREE
  | TORTILLA_WRAP
  | VEGETABLE_OIL
  | YELLOW_PEPPER
  deriving DecidableEq

/-- The Ingredient value carried by each member of the Ingredients
enum, as declared in src/src/ingredient.py. -/
def Ingredients.value : Ingredients → Ingredient
  | .BABY_SPINACH => ⟨"Baby Spinach", .VEGETABLE⟩
  | .BAY_LEAVES => ⟨"Bay Leaves", .HERB⟩
  | .BEEF_MINCE => ⟨"Beef Mince", .MEAT⟩
  | .BROWN_SUGAR => ⟨"Brown Sugar", .CONDIMENT⟩
  | .CARROT => ⟨"Carrot", .VEGETABLE⟩
  | .CASTER_SUGAR => ⟨"Caster Sugar", .CONDIMENT⟩
  | .CAYENNE_PEPPER => ⟨"Cayenne Pepper", .SPICE⟩
  | .CELERY => ⟨"Celery", .VEGETABLE⟩
  | .CHERRY_TOMATO => ⟨"Cherry Tomato", .VEGETABLE⟩
  | .CHICKEN_BREAST => ⟨"Chicken Breast", .MEAT⟩
  | .CHICKEN_STOCK => ⟨"Chicken Stock", .CONDIMENT⟩
  | .CHICKEN_THIGH => ⟨"Chicken Thigh", .MEAT⟩
  | .CHOPPED_TOMATO => ⟨"Chopped Tomato", .CAN⟩
  | .CORIANDER => ⟨"Coriander", .HERB⟩
  | .CREAM => ⟨"Cream", .DAIRY⟩
  | .DARK_SOY_SAUCE => ⟨"Dark Soy Sauce", .SAUCE⟩
  | .FRESH_CHILLI => ⟨"Fresh Chilli", .VEGETABLE⟩
  | .FLOUR => ⟨"Flour", .CONDIMENT⟩
  | .GARLIC_CLOVE => ⟨"Garlic Clove", .VEGETABLE⟩
  | .GINGER => ⟨"Ginger", .VEGETABLE⟩
  | .GUINNESS => ⟨"Guinness", .SAUCE⟩
  | .HONEY => ⟨"Honey", .CONDIMENT⟩
  | .KIDNEY_BEAN => ⟨"Kidney Bean", .CAN⟩
  | .LEMONGRASS_PASTE => ⟨"Lemongrass Paste", .CONDIMENT⟩
  | .MIXED_HERBS => ⟨"Mixed Herbs", .HERB⟩
  | .MOZARELLA_CHEESE => ⟨"Mozarella Cheese", .DAIRY⟩
  | .OLIVE_OIL => ⟨"Olive Oil", .CONDIMENT⟩
  | .ONION => ⟨"Onion", .VEGETABLE⟩
  | .OREGANO => ⟨"Oregano", .HERB⟩
  | .PAPRIKA => ⟨"Paprika", .SPICE⟩
  | .PARMESAN_CHEESE => ⟨"Parmesan Cheese", .DAIRY⟩
  | .PEAR => ⟨"Pear", .FRUIT⟩
  | .PENNE_PASTA => ⟨"Penne Pasta", .CARBOHYDRATE⟩
  | .PORK_BELLY_SLICE => ⟨"Pork Belly Slice", .MEAT⟩
  | .PORK_MINCE => ⟨"Pork Mince", .MEAT⟩
  | .POTATO => ⟨"Potato", .VEGETABLE⟩
  | .RED_CHILLI => ⟨"Red Chilli", .VEGETABLE⟩
  | .RED_ONION => ⟨"Red Onion", .VEGETABLE⟩
  | .RED_PEPPER => ⟨"Red Pepper", .VEGETABLE⟩
  | .RICE => ⟨"Rice", .CARBOHYDRATE⟩
  | .RICE_WINE => ⟨"Rice Wine", .SAUCE⟩
  | .SPAGHETTI => ⟨"Spaghetti", .CARBOHYDRATE⟩
  | .STEWING_BEEF => ⟨"Stewing Beef", .MEAT⟩
  | .SUNDRIED_TOMATOES => ⟨"Sundried Tomatoes", .CAN⟩
  | .TOMATO_PUREE => ⟨"Tomato Puree", .CONDIMENT⟩
  | .TORTILLA_WRAP => ⟨"Tortilla Wrap", .CARBOHYDRATE⟩
  | .VEGETABLE_OIL => ⟨"Vegetable Oil", .CONDIMENT⟩
  | .YELLOW_PEPPER => ⟨"Yellow Pepper", .VEGETABLE⟩

/-- Modelled from the spec: the Unit enum lives in
mealprep/src/constants.py, which is not among the sources, and the spec
does not list its members; units are therefore represented as an
indexed enumeration, which is all the isinstance check needs. -/
inductive MUnit where
  | unitMember (idx : Nat)
  deriving DecidableEq

/-- A runtime value as passed to the dynamically typed Python
constructors: an isinstance check inspects which constructor it is. -/
inductive PyVal where
  | vIngredient (i : Ingredient)
  | vIngredientsMember (m : Ingredients)
  | vUnit (u : MUnit)
  | vStr (s : String)
  | vInt (n : Int)
  | vNone
  deriving DecidableEq

/-- An IngredientQuantity as constructed by a successful init: an
Ingredients member, a unit and an arbitrary quantity value. -/
structure IngredientQuantity where
  ingredient : Ingredients
  unit : MUnit
  quantity : PyVal
  deriving DecidableEq

/-- IngredientQuantity init of src/src/ingredient.py: checks that the
ingredient argument is an Ingredients enum member, then that the unit
argument is a Unit, raising TypeError otherwise, and stores the three
arguments as fields. -/
def IngredientQuantity.init (ingredient unit quantity : PyVal) :
    Except String IngredientQuantity :=
  match ingredient with
  | .vIngredientsMember m =>
    match unit with
    | .vUnit u => Except.ok ⟨m, u, quantity⟩
    | _ => Except.error "TypeError: unit argument must be a Unit in IngredientQuantity init"
  | _ =>
    Except.error "TypeError: ingredient argument must be in the Ingredients enum in IngredientQuantity init"

/-! Helper lemmas shared by the claims. -/

/-- Filtering by an always-true predicate keeps every entry. -/
theorem filter_all_true {α : Type} (l : List α) : l.filter (fun _ => true) = l :=
  List.filter_eq_self.mpr (fun _ _ => rfl)

/-- Filtering twice by the same predicate filters once. -/
theorem filter_self_idem {α : Type} (q : α → Bool) (l : List α) :
    (l.filter q).filter q = l.filter q := by
  rw [List.filter_filter]
  exact List.filter_congr (fun a _ => Bool.and_self (q a))

/-- Keys of a filtered meals dictionary are among the original keys. -/
theorem keys_filter_subset {α : Type} (q : String × α → Bool) (meals : Meals α) :
    keys (meals.filter q) ⊆ keys meals := by
  intro x hx
  simp only [keys, List.mem_map] at hx ⊢
  obtain ⟨p, hp, rfl⟩ := hx
  exact ⟨p, (List.mem_filter.mp hp).1, rfl⟩

/-- Membership in the extracted history window. -/
theorem mem_close_iff (hist : History) (date : Int) (n : Nat) (name : String) :
    name ∈ get_close_history_meal_names hist date n ↔
      ∃ d, (d, name) ∈ hist ∧ (d - date).natAbs ≤ n := by
  simp only [get_close_history_meal_names, List.mem_map, List.mem_filter,
    decide_eq_true_eq]
  constructor
  · rintro ⟨⟨d, m⟩, ⟨hmem, hle⟩, rfl⟩
    exact ⟨d, hmem, hle⟩
  · rintro ⟨d, hmem, hle⟩
    exact ⟨(d, name), ⟨hmem, hle⟩, rfl⟩

/-- The extracted history window is empty when no entry is close. -/
theorem close_eq_nil (hist : History) (date : Int) (n : Nat)
    (H : ∀ p ∈ hist, ¬((p.1 - date).natAbs ≤ n)) :
    get_close_history_meal_names hist date n = [] := by
  have hf : hist.filter (fun p => (p.1 - date).natAbs ≤ n) = [] :=
    List.filter_eq_nil_iff.mpr (fun a ha => by simpa using H a ha)
  simp [get_close_history_meal_names, hf]

/-- Every rule of the catalog, at a fixed date and history, acts on the
meals dictionary as a List.filter by a predicate that does not depend on
the meals dictionary. -/
theorem rule_isFilter {α : Type} (c : Catalog)
    (r : Meals α → Int → History → Meals α) (hr : r ∈ rulesList c)
    (date : Int) (hist : History) :
    ∃ q, ∀ meals : Meals α, r meals date hist = meals.filter q := by
  simp only [rulesList, List.mem_cons, List.not_mem_nil, or_false] at hr
  rcases hr with rfl | rfl | rfl | rfl | rfl | rfl | rfl | rfl | rfl
  · exact ⟨_, fun meals => rfl⟩
  · exact ⟨_, fun meals => rfl⟩
  · exact ⟨_, fun meals => rfl⟩
  · by_cases hc : (get_close_history_meal_names hist date 5).any c.is_pasta
    · exact ⟨fun p => !(c.is_pasta p.1), fun meals => by
        simp only [not_pasta_within_five_days]
        rw [if_pos hc]⟩
    · exact ⟨fun _ => true, fun meals => by
        simp only [not_pasta_within_five_days]
        rw [if_neg hc, filter_all_true]⟩
  · by_cases hd : weekday date = 6
    · exact ⟨fun p => c.is_roast p.1, fun meals => by
        simp only [force_sunday_roast]
        rw [if_neg (not_not_intro hd)]⟩
    · exact ⟨fun _ => true, fun meals => by
        simp only [force_sunday_roast]
        rw [if_pos hd, filter_all_true]⟩
  · by_cases hd : weekday date = 6
    · exact ⟨fun _ => true, fun meals => by
        simp only [not_roast_on_non_sunday]
        rw [if_pos hd, filter_all_true]⟩
    · exact ⟨fun p => !(c.is_roast p.1), fun meals => by
        simp only [not_roast_on_non_sunday]
        rw [if_neg hd]⟩
  · by_cases hc : (get_close_history_meal_names hist date 7).any c.is_fish
    · exact ⟨fun p => !(c.is_fish p.1), fun meals => by
        simp only [not_fish_within_seven_days]
        rw [if_pos hc]⟩
    · exact ⟨fun _ => true, fun meals => by
        simp only [not_fish_within_seven_days]
        rw [if_neg hc, filter_all_true]⟩
  · by_cases hd : (([5, 6] : List Int).contains (weekday date)) = true
    · exact ⟨fun p => !(c.is_time_consuming p.1), fun meals => by
        simp only [not_time_consuming_on_weekend, hd, Bool.not_true]
        rw [if_neg (by simp)]⟩
    · exact ⟨fun _ => true, fun meals => by
        simp only [not_time_consuming_on_weekend,
          Bool.not_eq_true] at hd ⊢
        rw [hd]
        simp only [Bool.not_false, if_pos]
        rw [filter_all_true]⟩
  · by_cases hm : (get_close_history_meal_names hist date 7).contains "Moussaka" = true
    · by_cases hl : (get_close_history_meal_names hist date 7).contains "Lasagne" = true
      · exact ⟨fun p => (!(p.1 == "Moussaka")) && (!(p.1 == "Lasagne")), fun meals => by
          simp only [not_lasagne_and_moussaka_within_seven_days]
          rw [if_pos hm, if_pos hl, List.filter_filter]⟩
      · exact ⟨fun p => !(p.1 == "Lasagne"), fun meals => by
          simp only [not_lasagne_and_moussaka_within_seven_days]
          rw [if_pos hm, if_neg hl]⟩
    · by_cases hl : (get_close_history_meal_names hist date 7).contains "Lasagne" = true
      · exact ⟨fun p => !(p.1 == "Moussaka"), fun meals => by
          simp only [not_lasagne_and_moussaka_within_seven_days]
          rw [if_neg hm, if_pos hl]⟩
      · exact ⟨fun _ => true, fun meals => by
          simp only [not_lasagne_and_moussaka_within_seven_days]
          rw [if_neg hm, if_neg hl, filter_all_true]⟩

/-- C2: get_close_history_meal_names returns exactly the names of meals
whose history date is within n_days, inclusive, of the target date in
either temporal direction, and returns the empty set, not an error,
when no history entry falls in the window. -/
theorem close_history_window_spec :
    (∀ (hist : History) (date : Int) (n : Nat) (name : String),
      name ∈ get_close_history_meal_names hist date n ↔
        ∃ d, (d, name) ∈ hist ∧ (d - date).natAbs ≤ n) ∧
    (∀ (hist : History) (date : Int) (n : Nat),
      (∀ p ∈ hist, ¬((p.1 - date).natAbs ≤ n)) →
        get_close_history_meal_names hist date n = []) :=
  ⟨mem_close_iff, close_eq_nil⟩

/-- C2 witness: a history entry exactly 14 days away is included, one at
distance 15 is excluded, and a history with no entry in the window gives
the empty set. -/
theorem close_history_window_spec_witness :
    ("Chicken Curry" ∈ get_close_history_meal_names [((100 : Int), "Chicken Curry")] 114 14 ∧
     "Beef Chilli" ∉ get_close_history_meal_names [((100 : Int), "Beef Chilli")] 115 14) ∧
    get_close_history_meal_names [((100 : Int), "Moussaka")] 0 14 = [] :=
  ⟨⟨(close_history_window_spec.1 [((100 : Int), "Chicken Curry")] 114 14 "Chicken Curry").mpr
      ⟨100, by decide, by decide⟩,
    fun h => by
      obtain ⟨d, hd, hle⟩ :=
        (close_history_window_spec.1 [((100 : Int), "Beef Chilli")] 115 14 "Beef Chilli").mp h
      simp only [List.mem_singleton, Prod.mk.injEq] at hd
      rw [hd.1] at hle
      exact absurd hle (by decide)⟩,
   close_history_window_spec.2 [((100 : Int), "Moussaka")] 0 14 (by decide)⟩

/-- Any rule of the catalog only shrinks the key set. -/
theorem keys_subset_of_mem {α : Type} (c : Catalog)
    (r : Meals α → Int → History → Meals α) (hr : r ∈ rulesList c)
    (meals : Meals α) (date : Int) (hist : History) :
    keys (r meals date hist) ⊆ keys meals := by
  obtain ⟨q, hq⟩ := rule_isFilter c r hr date hist
  rw [hq]
  exact keys_filter_subset q meals

/-- Any two rules of the catalog commute at fixed date and history. -/
theorem commute_of_mem {α : Type} (c : Catalog)
    (r₁ r₂ : Meals α → Int → History → Meals α)
    (h₁ : r₁ ∈ rulesList c) (h₂ : r₂ ∈ rulesList c)
    (meals : Meals α) (date : Int) (hist : History) :
    r₁ (r₂ meals date hist) date hist = r₂ (r₁ meals date hist) date hist := by
  obtain ⟨q₁, hq₁⟩ := rule_isFilter c r₁ h₁ date hist
  obtain ⟨q₂, hq₂⟩ := rule_isFilter c r₂ h₂ date hist
  rw [hq₂, hq₁, hq₁, hq₂, List.filter_filter, List.filter_filter]
  exact List.filter_congr (fun a _ => Bool.and_comm _ _)

/-- Folding rules of the catalog is invariant under permutation of the
rule list. -/
theorem applyAll_perm {α : Type} (c : Catalog) (date : Int) (hist : History)
    (rs₁ rs₂ : List (Meals α → Int → History → Meals α))
    (hperm : rs₁.Perm rs₂) (hmem : ∀ r ∈ rs₁, r ∈ rulesList c) :
    ∀ meals : Meals α, applyAll rs₁ meals date hist = applyAll rs₂ meals date hist := by
  induction hperm with
  | nil => intro meals; rfl
  | cons x p ih =>
    intro meals
    have hx := hmem x (List.mem_cons_self x _)
    have hmem' : ∀ r ∈ _, r ∈ rulesList c := fun r hr => hmem r (List.mem_cons_of_mem x hr)
    simpa [applyAll] using ih hmem' (x meals date hist)
  | swap x y l =>
    intro meals
    have hx := hmem x (List.mem_cons_of_mem y (List.mem_cons_self x _))
    have hy := hmem y (List.mem_cons_self y _)
    simp only [applyAll, List.foldl_cons]
    rw [commute_of_mem c x y hx hy meals date hist]
  | trans p₁ p₂ ih₁ ih₂ =>
    intro meals
    have hmem₂ : ∀ r ∈ _, r ∈ rulesList c := fun r hr => hmem r (p₁.mem_iff.mpr hr)
    rw [ih₁ hmem meals, ih₂ hmem₂ meals]

/-- The pipeline is the fold of the rule catalog in declared order. -/
theorem pipeline_eq_applyAll {α : Type} (c : Catalog)
    (meals : Meals α) (date : Int) (hist : History) :
    pipeline c meals date hist = applyAll (rulesList c) meals date hist := rfl

/-- C1: every rule of the catalog, on every candidate dictionary, date
and combined history, returns a dictionary whose key set is a subset of
the key set of the input; a rule only removes entries, never adds any. -/
theorem rules_only_remove_keys {α : Type} (c : Catalog)
    (meals : Meals α) (date : Int) (hist : History) :
    keys (not_consecutive_same_protein c meals date hist) ⊆ keys meals ∧
    keys (not_within_seven_days c meals date hist) ⊆ keys meals ∧
    keys (not_non_favourite_within_fourteen_days c meals date hist) ⊆ keys meals ∧
    keys (not_pasta_within_five_days c meals date hist) ⊆ keys meals ∧
    keys (force_sunday_roast c meals date hist) ⊆ keys meals ∧
    keys (not_roast_on_non_sunday c meals date hist) ⊆ keys meals ∧
    keys (not_fish_within_seven_days c meals date hist) ⊆ keys meals ∧
    keys (not_time_consuming_on_weekend c meals date hist) ⊆ keys meals ∧
    keys (not_lasagne_and_moussaka_within_seven_days c meals date hist) ⊆ keys meals :=
  ⟨keys_subset_of_mem c _ (by simp [rulesList]) meals date hist,
   keys_subset_of_mem c _ (by simp [rulesList]) meals date hist,
   keys_subset_of_mem c _ (by simp [rulesList]) meals date hist,
   keys_subset_of_mem c _ (by simp [rulesList]) meals date hist,
   keys_subset_of_mem c _ (by simp [rulesList]) meals date hist,
   keys_subset_of_mem c _ (by simp [rulesList]) meals date hist,
   keys_subset_of_mem c _ (by simp [rulesList]) meals date hist,
   keys_subset_of_mem c _ (by simp [rulesList]) meals date hist,
   keys_subset_of_mem c _ (by simp [rulesList]) meals date hist⟩

/-- C1 witness: the subset property at a concrete catalog, candidate
dictionary, date and history. -/
theorem rules_only_remove_keys_witness :
    keys (not_within_seven_days exampleCatalog exampleMeals date_2024_01_02 exampleHistory)
      ⊆ keys exampleMeals :=
  (rules_only_remove_keys exampleCatalog exampleMeals date_2024_01_02 exampleHistory).2.1

/-- C6: every rule of the catalog is idempotent: applying it twice with
the same date and combined history equals applying it once. -/
theorem rules_idempotent {α : Type} (c : Catalog)
    (r : Meals α → Int → History → Meals α) (hr : r ∈ rulesList c)
    (meals : Meals α) (date : Int) (hist : History) :
    r (r meals date hist) date hist = r meals date hist := by
  obtain ⟨q, hq⟩ := rule_isFilter c r hr date hist
  rw [hq, hq]
  exact filter_self_idem q meals

/-- C6 witness: idempotence of the seven-day repeat rule at a concrete
input. -/
theorem rules_idempotent_witness :
    not_within_seven_days exampleCatalog
        (not_within_seven_days exampleCatalog exampleMeals date_2024_01_02 exampleHistory)
        date_2024_01_02 exampleHistory =
      not_within_seven_days exampleCatalog exampleMeals date_2024_01_02 exampleHistory :=
  rules_idempotent exampleCatalog (not_within_seven_days exampleCatalog)
    (by simp [rulesList]) exampleMeals date_2024_01_02 exampleHistory

/-- C7: any two rules of the catalog applied in either order yield the
same candidate dictionary; consequently the fold of the rules over the
candidates is invariant under permutation of the rule list, and the
pipeline is that fold in the declared order. -/
theorem rules_commute {α : Type} (c : Catalog) (date : Int) (hist : History) :
    (∀ r₁ r₂ : Meals α → Int → History → Meals α,
      r₁ ∈ rulesList c → r₂ ∈ rulesList c → ∀ meals : Meals α,
        r₁ (r₂ meals date hist) date hist = r₂ (r₁ meals date hist) date hist) ∧
    (∀ rs₁ rs₂ : List (Meals α → Int → History → Meals α),
      rs₁.Perm rs₂ → (∀ r ∈ rs₁, r ∈ rulesList c) → ∀ meals : Meals α,
        applyAll rs₁ meals date hist = applyAll rs₂ meals date hist) ∧
    (∀ meals : Meals α,
      pipeline c meals date hist = applyAll (rulesList c) meals date hist) :=
  ⟨fun r₁ r₂ h₁ h₂ meals => commute_of_mem c r₁ r₂ h₁ h₂ meals date hist,
   fun rs₁ rs₂ hperm hmem => applyAll_perm c date hist rs₁ rs₂ hperm hmem,
   fun meals => pipeline_eq_applyAll c meals date hist⟩

/-- C7 witness: the roast-forcing rule and the seven-day repeat rule
commute at a concrete input. -/
theorem rules_commute_witness :
    not_within_seven_days exampleCatalog
        (force_sunday_roast exampleCatalog exampleMeals date_2024_01_02 exampleHistory)
        date_2024_01_02 exampleHistory =
      force_sunday_roast exampleCatalog
        (not_within_seven_days exampleCatalog exampleMeals date_2024_01_02 exampleHistory)
        date_2024_01_02 exampleHistory :=
  (rules_commute exampleCatalog date_2024_01_02 exampleHistory).1
    (not_within_seven_days exampleCatalog) (force_sunday_roast exampleCatalog)
    (by simp [rulesList]) (by simp [rulesList]) exampleMeals

/-- C8: every rule of the catalog is total on the embedding: for every
candidate dictionary, date and history it evaluates to a filtered
sub-dictionary of its input, the empty candidate dictionary is handled
and yields the empty result, and a rule may narrow a non-empty candidate
dictionary down to the empty dictionary as a valid return value, as
force_sunday_roast does on a Sunday with no roast among the candidates. -/
theorem rules_total {α : Type} (c : Catalog)
    (r : Meals α → Int → History → Meals α) (hr : r ∈ rulesList c)
    (meals : Meals α) (date : Int) (hist : History) :
    (∃ q, r meals date hist = meals.filter q) ∧
    r ([] : Meals α) date hist = [] ∧
    force_sunday_roast exampleCatalog [("Stir Fry", (0 : Nat))] date_2024_01_07 [] = [] := by
  obtain ⟨q, hq⟩ := rule_isFilter c r hr date hist
  exact ⟨⟨q, hq meals⟩, by rw [hq]; rfl, by decide⟩

/-- C8 witness: totality of the pasta rule at a concrete input. -/
theorem rules_total_witness :
    (∃ q, not_pasta_within_five_days exampleCatalog exampleMeals date_2024_01_02 exampleHistory
        = exampleMeals.filter q) ∧
    not_pasta_within_five_days exampleCatalog ([] : Meals Nat) date_2024_01_02 exampleHistory = [] ∧
    force_sunday_roast exampleCatalog [("Stir Fry", (0 : Nat))] date_2024_01_07 [] = [] :=
  rules_total exampleCatalog (not_pasta_within_five_days exampleCatalog)
    (by simp [rulesList]) exampleMeals date_2024_01_02 exampleHistory

/-- Bool list containment agrees with membership. -/
theorem contains_true_iff {α : Type} [BEq α] [LawfulBEq α] (l : List α) (a : α) :
    l.contains a = true ↔ a ∈ l := by
  simp [List.contains, List.elem_iff]

/-- Membership in the output of the consecutive-protein rule. -/
theorem mem_not_consecutive_iff {α : Type} (c : Catalog)
    (meals : Meals α) (date : Int) (hist : History) (p : String × α) :
    p ∈ not_consecutive_same_protein c meals date hist ↔
      p ∈ meals ∧
        ¬∃ d m, (d, m) ∈ hist ∧ (d - date).natAbs ≤ 1 ∧
          c.get_protein m ≠ none ∧ c.get_protein p.1 = c.get_protein m := by
  simp only [not_consecutive_same_protein, List.mem_filter]
  refine and_congr_right fun _ => ?_
  cases hpr : c.get_protein p.1 with
  | none =>
    simp only [hpr]
    constructor
    · rintro - ⟨d, m, hdm, hle, hne, heq⟩
      exact hne heq.symm
    · intro _
      trivial
  | some pr =>
    simp only [hpr, Bool.not_eq_true']
    rw [Bool.eq_false_iff]
    apply not_congr
    rw [contains_true_iff]
    simp only [List.mem_filterMap]
    constructor
    · rintro ⟨m, hmA, hm⟩
      obtain ⟨d, hdm, hle⟩ := (mem_close_iff hist date 1 m).mp hmA
      exact ⟨d, m, hdm, hle, fun hnone => by rw [hm] at hnone; exact Option.noConfusion hnone,
        hm.symm⟩
    · rintro ⟨d, m, hdm, hle, hne, heq⟩
      exact ⟨m, (mem_close_iff hist date 1 m).mpr ⟨d, hdm, hle⟩, heq.symm⟩

/-- C3: the consecutive-protein rule removes exactly the candidates
whose protein category equals that of some meal within one day of the
target date in the combined history, keeps every candidate with no
protein category, and on the concrete scenario of the spec removes
Chicken Fajitas and keeps Beef Chilli. -/
theorem not_consecutive_same_protein_spec {α : Type} (c : Catalog)
    (meals : Meals α) (date : Int) (hist : History) :
    (∀ p : String × α,
      p ∈ not_consecutive_same_protein c meals date hist ↔
        p ∈ meals ∧
          ¬∃ d m, (d, m) ∈ hist ∧ (d - date).natAbs ≤ 1 ∧
            c.get_protein m ≠ none ∧ c.get_protein p.1 = c.get_protein m) ∧
    (∀ p : String × α, p ∈ meals → c.get_protein p.1 = none →
      p ∈ not_consecutive_same_protein c meals date hist) ∧
    (("Chicken Fajitas", (0 : Nat)) ∉
        not_consecutive_same_protein exampleCatalog exampleMeals date_2024_01_02 exampleHistory ∧
      ("Beef Chilli", (1 : Nat)) ∈
        not_consecutive_same_protein exampleCatalog exampleMeals date_2024_01_02 exampleHistory) :=
  ⟨mem_not_consecutive_iff c meals date hist,
   fun p hp hnone =>
    (mem_not_consecutive_iff c meals date hist p).mpr
      ⟨hp, by
        rintro ⟨d, m, hdm, hle, hne, heq⟩
        exact hne (heq.symm.trans hnone)⟩,
   by decide, by decide⟩

/-- C3 witness: the characterisation applied to a candidate with no
protein category at a concrete input. -/
theorem not_consecutive_same_protein_spec_witness :
    ("Stir Fry", (3 : Nat)) ∈
      not_consecutive_same_protein exampleCatalog exampleMeals date_2024_01_02 exampleHistory :=
  (not_consecutive_same_protein_spec exampleCatalog exampleMeals
      date_2024_01_02 exampleHistory).2.1
    ("Stir Fry", (3 : Nat)) (by decide) (by decide)

/-- C4: on a Sunday the roast-forcing rule keeps exactly the roast
candidates and the non-Sunday roast exclusion is a no-op; on any other
day the roast exclusion removes exactly the roast candidates and the
roast forcing is a no-op; so for every date exactly one of the two roast
policies is active. -/
theorem roast_policies {α : Type} (c : Catalog)
    (meals : Meals α) (date : Int) (hist : History) :
    (weekday date = 6 →
      force_sunday_roast c meals date hist = meals.filter (fun p => c.is_roast p.1) ∧
      not_roast_on_non_sunday c meals date hist = meals) ∧
    (weekday date ≠ 6 →
      force_sunday_roast c meals date hist = meals ∧
      not_roast_on_non_sunday c meals date hist =
        meals.filter (fun p => !(c.is_roast p.1))) := by
  constructor
  · intro hd
    constructor
    · simp only [force_sunday_roast]
      rw [if_neg (not_not_intro hd)]
    · simp only [not_roast_on_non_sunday]
      rw [if_pos hd]
  · intro hd
    constructor
    · simp only [force_sunday_roast]
      rw [if_pos hd]
    · simp only [not_roast_on_non_sunday]
      rw [if_neg hd]

/-- C4 witness: the Sunday branch on 2024-01-07 and the non-Sunday
branch on 2024-01-02, at a concrete catalog and candidates. -/
theorem roast_policies_witness :
    (force_sunday_roast exampleCatalog exampleMeals date_2024_01_07 exampleHistory =
        exampleMeals.filter (fun p => exampleCatalog.is_roast p.1) ∧
      not_roast_on_non_sunday exampleCatalog exampleMeals date_2024_01_07 exampleHistory =
        exampleMeals) ∧
    (force_sunday_roast exampleCatalog exampleMeals date_2024_01_02 exampleHistory =
        exampleMeals ∧
      not_roast_on_non_sunday exampleCatalog exampleMeals date_2024_01_02 exampleHistory =
        exampleMeals.filter (fun p => !(exampleCatalog.is_roast p.1))) :=
  ⟨(roast_policies exampleCatalog exampleMeals date_2024_01_07 exampleHistory).1 (by decide),
   (roast_policies exampleCatalog exampleMeals date_2024_01_02 exampleHistory).2 (by decide)⟩

/-- Membership in the output of the lasagne and moussaka rule. -/
theorem mem_lasagne_moussaka_iff {α : Type} (c : Catalog)
    (meals : Meals α) (date : Int) (hist : History) (p : String × α) :
    p ∈ not_lasagne_and_moussaka_within_seven_days c meals date hist ↔
      p ∈ meals ∧
        (p.1 = "Lasagne" → "Moussaka" ∉ get_close_history_meal_names hist date 7) ∧
        (p.1 = "Moussaka" → "Lasagne" ∉ get_close_history_meal_names hist date 7) := by
  simp only [not_lasagne_and_moussaka_within_seven_days]
  by_cases hm : (get_close_history_meal_names hist date 7).contains "Moussaka" = true
  · by_cases hl : (get_close_history_meal_names hist date 7).contains "Lasagne" = true
    · have hm' := (contains_true_iff (get_close_history_meal_names hist date 7) "Moussaka").mp hm
      have hl' := (contains_true_iff (get_close_history_meal_names hist date 7) "Lasagne").mp hl
      rw [if_pos hm, if_pos hl]
      simp only [List.mem_filter, Bool.not_eq_true', beq_eq_false_iff_ne]
      constructor
      · rintro ⟨⟨hp, h1⟩, h2⟩
        exact ⟨hp, fun h => absurd h h1, fun h => absurd h h2⟩
      · rintro ⟨hp, h1, h2⟩
        exact ⟨⟨hp, fun h => absurd hm' (h1 h)⟩, fun h => absurd hl' (h2 h)⟩
    · have hm' := (contains_true_iff (get_close_history_meal_names hist date 7) "Moussaka").mp hm
      have hl' : "Lasagne" ∉ get_close_history_meal_names hist date 7 :=
        fun h => hl ((contains_true_iff (get_close_history_meal_names hist date 7) "Lasagne").mpr h)
      rw [if_pos hm, if_neg hl]
      simp only [List.mem_filter, Bool.not_eq_true', beq_eq_false_iff_ne]
      constructor
      · rintro ⟨hp, h1⟩
        exact ⟨hp, fun h => absurd h h1, fun _ => hl'⟩
      · rintro ⟨hp, h1, h2⟩
        exact ⟨hp, fun h => absurd hm' (h1 h)⟩
  · by_cases hl : (get_close_history_meal_names hist date 7).contains "Lasagne" = true
    · have hm' : "Moussaka" ∉ get_close_history_meal_names hist date 7 :=
        fun h => hm ((contains_true_iff (get_close_history_meal_names hist date 7) "Moussaka").mpr h)
      have hl' := (contains_true_iff (get_close_history_meal_names hist date 7) "Lasagne").mp hl
      rw [if_neg hm, if_pos hl]
      simp only [List.mem_filter, Bool.not_eq_true', beq_eq_false_iff_ne]
      constructor
      · rintro ⟨hp, h2⟩
        exact ⟨hp, fun _ => hm', fun h => absurd h h2⟩
      · rintro ⟨hp, h1, h2⟩
        exact ⟨hp, fun h => absurd hl' (h2 h)⟩
    · have hm' : "Moussaka" ∉ get_close_history_meal_names hist date 7 :=
        fun h => hm ((contains_true_iff (get_close_history_meal_names hist date 7) "Moussaka").mpr h)
      have hl' : "Lasagne" ∉ get_close_history_meal_names hist date 7 :=
        fun h => hl ((contains_true_iff (get_close_history_meal_names hist date 7) "Lasagne").mpr h)
      rw [if_neg hm, if_neg hl]
      constructor
      · intro hp
        exact ⟨hp, fun _ => hm', fun _ => hl'⟩
      · rintro ⟨hp, -, -⟩
        exact hp

/-- C5: the lasagne and moussaka rule removes Lasagne exactly when
Moussaka is in the seven-day window, removes Moussaka exactly when
Lasagne is in that window, the two checks being independent, and always
preserves every candidate named neither Lasagne nor Moussaka. -/
theorem lasagne_moussaka_spec {α : Type} (c : Catalog)
    (meals : Meals α) (date : Int) (hist : History) :
    (∀ p : String × α,
      p ∈ not_lasagne_and_moussaka_within_seven_days c meals date hist ↔
        p ∈ meals ∧
          (p.1 = "Lasagne" → "Moussaka" ∉ get_close_history_meal_names hist date 7) ∧
          (p.1 = "Moussaka" → "Lasagne" ∉ get_close_history_meal_names hist date 7)) ∧
    (∀ p : String × α, p ∈ meals → p.1 ≠ "Lasagne" → p.1 ≠ "Moussaka" →
      p ∈ not_lasagne_and_moussaka_within_seven_days c meals date hist) :=
  ⟨mem_lasagne_moussaka_iff c meals date hist,
   fun p hp h1 h2 =>
    (mem_lasagne_moussaka_iff c meals date hist p).mpr
      ⟨hp, fun h => absurd h h1, fun h => absurd h h2⟩⟩

/-- C5 witness: a candidate named neither Lasagne nor Moussaka survives
the rule at a concrete input, and Lasagne is removed when Moussaka
occurred three days earlier. -/
theorem lasagne_moussaka_spec_witness :
    ("Beef Chilli", (1 : Nat)) ∈
      not_lasagne_and_moussaka_within_seven_days exampleCatalog exampleMeals
        date_2024_01_02 exampleHistory :=
  (lasagne_moussaka_spec exampleCatalog exampleMeals date_2024_01_02 exampleHistory).2
    ("Beef Chilli", (1 : Nat)) (by decide) (by decide) (by decide)

/-- C9: when no history entry lies within any window of the target date
(all windows are at most 14 days), each history-window rule returns its
input unchanged, and the pipeline reduces to the three weekday-only
rules applied in their declared order. -/
theorem quiet_history_identity {α : Type} (c : Catalog)
    (meals : Meals α) (date : Int) (hist : History)
    (H : ∀ p ∈ hist, ¬((p.1 - date).natAbs ≤ 14)) :
    not_consecutive_same_protein c meals date hist = meals ∧
    not_within_seven_days c meals date hist = meals ∧
    not_non_favourite_within_fourteen_days c meals date hist = meals ∧
    not_pasta_within_five_days c meals date hist = meals ∧
    not_fish_within_seven_days c meals date hist = meals ∧
    not_lasagne_and_moussaka_within_seven_days c meals date hist = meals ∧
    pipeline c meals date hist =
      not_time_consuming_on_weekend c
        (not_roast_on_non_sunday c
          (force_sunday_roast c meals date hist) date hist) date hist := by
  have h1 : get_close_history_meal_names hist date 1 = [] :=
    close_eq_nil hist date 1 (fun p hp hle => H p hp (Nat.le_trans hle (by decide)))
  have h5 : get_close_history_meal_names hist date 5 = [] :=
    close_eq_nil hist date 5 (fun p hp hle => H p hp (Nat.le_trans hle (by decide)))
  have h7 : get_close_history_meal_names hist date 7 = [] :=
    close_eq_nil hist date 7 (fun p hp hle => H p hp (Nat.le_trans hle (by decide)))
  have h14 : get_close_history_meal_names hist date 14 = [] :=
    close_eq_nil hist date 14 (fun p hp hle => H p hp hle)
  have e1 : ∀ ms : Meals α, not_consecutive_same_protein c ms date hist = ms := by
    intro ms
    simp only [not_consecutive_same_protein, h1, List.filterMap_nil]
    exact List.filter_eq_self.mpr (fun p _ => by cases c.get_protein p.1 <;> simp)
  have e2 : ∀ ms : Meals α, not_within_seven_days c ms date hist = ms := by
    intro ms
    simp only [not_within_seven_days, h7]
    exact List.filter_eq_self.mpr (fun p _ => by simp)
  have e3 : ∀ ms : Meals α, not_non_favourite_within_fourteen_days c ms date hist = ms := by
    intro ms
    simp only [not_non_favourite_within_fourteen_days, h14]
    exact List.filter_eq_self.mpr (fun p _ => by simp)
  have e4 : ∀ ms : Meals α, not_pasta_within_five_days c ms date hist = ms := by
    intro ms
    simp [not_pasta_within_five_days, h5]
  have e5 : ∀ ms : Meals α, not_fish_within_seven_days c ms date hist = ms := by
    intro ms
    simp [not_fish_within_seven_days, h7]
  have e6 : ∀ ms : Meals α,
      not_lasagne_and_moussaka_within_seven_days c ms date hist = ms := by
    intro ms
    simp [not_lasagne_and_moussaka_within_seven_days, h7]
  refine ⟨e1 meals, e2 meals, e3 meals, e4 meals, e5 meals, e6 meals, ?_⟩
  simp only [pipeline, e1, e2, e3, e4, e5, e6]

/-- C9 witness: the identity behaviour at a concrete far-away history. -/
theorem quiet_history_identity_witness :
    not_within_seven_days exampleCatalog exampleMeals date_2024_01_02 quietHistory =
      exampleMeals :=
  (quiet_history_identity exampleCatalog exampleMeals date_2024_01_02 quietHistory
    (by decide)).2.1

/-- C10: IngredientQuantity init rejects with TypeError every
ingredient value that is not an Ingredients enum member, including a
plain Ingredient instance despite the parameter annotation, producing
no object; and when the ingredient is an Ingredients member and the
unit is a Unit it returns the object whose ingredient, unit and
quantity fields equal the arguments. -/
theorem ingredient_quantity_init_spec :
    (∀ v u q : PyVal, (∀ m : Ingredients, v ≠ PyVal.vIngredientsMember m) →
      IngredientQuantity.init v u q =
        Except.error
          "TypeError: ingredient argument must be in the Ingredients enum in IngredientQuantity init") ∧
    (∀ (i : Ingredient) (u q : PyVal),
      IngredientQuantity.init (PyVal.vIngredient i) u q =
        Except.error
          "TypeError: ingredient argument must be in the Ingredients enum in IngredientQuantity init") ∧
    (∀ (m : Ingredients) (u : MUnit) (q : PyVal),
      IngredientQuantity.init (PyVal.vIngredientsMember m) (PyVal.vUnit u) q =
        Except.ok ⟨m, u, q⟩) := by
  refine ⟨?_, ?_, ?_⟩
  · intro v u q hv
    cases v <;> first | rfl | exact absurd rfl (hv _)
  · intro i u q
    rfl
  · intro m u q
    rfl

/-- C10 witness: a plain Ingredient instance and a string are rejected,
and a well-typed construction stores exactly its arguments. -/
theorem ingredient_quantity_init_spec_witness :
    IngredientQuantity.init (PyVal.vStr "Baby Spinach")
        (PyVal.vUnit (MUnit.unitMember 0)) PyVal.vNone =
      Except.error
        "TypeError: ingredient argument must be in the Ingredients enum in IngredientQuantity init" ∧
    IngredientQuantity.init (PyVal.vIngredient ⟨"Baby Spinach", Category.VEGETABLE⟩)
        (PyVal.vUnit (MUnit.unitMember 0)) (PyVal.vInt 100) =
      Except.error
        "TypeError: ingredient argument must be in the Ingredients enum in IngredientQuantity init" ∧
    IngredientQuantity.init (PyVal.vIngredientsMember Ingredients.BABY_SPINACH)
        (PyVal.vUnit (MUnit.unitMember 0)) (PyVal.vInt 100) =
      Except.ok ⟨Ingredients.BABY_SPINACH, MUnit.unitMember 0, PyVal.vInt 100⟩ :=
  ⟨ingredient_quantity_init_spec.1 (PyVal.vStr "Baby Spinach")
      (PyVal.vUnit (MUnit.unitMember 0)) PyVal.vNone
      (fun m h => PyVal.noConfusion h),
   ingredient_quantity_init_spec.2.1 ⟨"Baby Spinach", Category.VEGETABLE⟩
      (PyVal.vUnit (MUnit.unitMember 0)) (PyVal.vInt 100),
   ingredient_quantity_init_spec.2.2 Ingredients.BABY_SPINACH
      (MUnit.unitMember 0) (PyVal.vInt 100)⟩

end MealPrep
